import Mathlib

/-!
Shallow embedding of the effect-to-write-set conversion layer of
`aptos-move/aptos-vm/src/move_vm_ext/session.rs`:
`WriteOpConverter::convert`, the resource-group merge core of
`split_and_merge_resource_groups`, timestamp resolution
(`parse_updated_timestamp` / `get_current_timestamp`), and
`convert_change_set`.

Modelling conventions:
- `StateKey` (a physical storage key after access-path encoding) is `Nat`;
  serialized blobs (`Vec<u8>`) are `List Nat`; account addresses are `Nat`;
  `CurrentTimeMicroseconds` is `Nat`.
- The read-only state view (`remote.get_state_value`) is a function
  `StateKey → Except Unit (Option StateValue)`; an `Err` models an I/O
  failure of the resolver.
- BCS serialization/deserialization is external to this file's scope and is
  passed in as function parameters (`ser`, `deser`, `serU128`).
- Rust `Result<_, VMStatus>` and `VMResult<_>` are both modelled as
  `Except VMStatus _`; the only error payloads used by this code are a
  status code and an optional message.
-/

/-- Physical storage key (the result of access-path encoding, which is an
external collaborator). -/
abbrev StateKey := Nat

/-- Serialized blob (`Vec<u8>`). -/
abbrev Bytes := List Nat

/-- `StateValueMetadata`: payer address, deposit, creation timestamp
(`StateValueMetadata::new(payer, 0, current_time)`). -/
structure StateValueMetadata where
  payer : Nat
  deposit : Nat
  creation_time_usecs : Nat
deriving DecidableEq, Repr

/-- A materialized state value from the state view: data plus optional
slot metadata (`into_metadata` projects the metadata). -/
structure StateValue where
  data : Bytes
  metadata : Option StateValueMetadata
deriving DecidableEq, Repr

/-- `MoveStorageOp` (`move_core_types::effects::Op`): `New`, `Modify`,
`Delete`. -/
inductive MoveStorageOp (α : Type) where
  | New (v : α)
  | Modify (v : α)
  | Delete
deriving DecidableEq, Repr

/-- `WriteOp` from `aptos_types::write_set`: creation / modification /
deletion, each with or without metadata. -/
inductive WriteOp where
  | Creation (data : Bytes)
  | CreationWithMetadata (data : Bytes) (metadata : StateValueMetadata)
  | Modification (data : Bytes)
  | ModificationWithMetadata (data : Bytes) (metadata : StateValueMetadata)
  | Deletion
  | DeletionWithMetadata (metadata : StateValueMetadata)
deriving DecidableEq, Repr

/-- The status codes this file's code paths can produce. -/
inductive StatusCode where
  | UNKNOWN_INVARIANT_VIOLATION_ERROR
  | STORAGE_ERROR
  | DATA_FORMAT_ERROR
  | EVENT_KEY_MISMATCH
deriving DecidableEq, Repr

/-- `VMStatus::Error(code, message)`. -/
inductive VMStatus where
  | Error (code : StatusCode) (msg : Option String)
deriving DecidableEq, Repr

/-- The state view: `remote.get_state_value(state_key)`, which returns
`Ok(Option<StateValue>)` or an I/O error. -/
abbrev StateView := StateKey → Except Unit (Option StateValue)

/-- `WriteOpConverter::convert` (session.rs lines 491-541): classify the
requested op against the prior existence of the slot, attaching new-slot
metadata on creation and inheriting prior metadata on modify/delete. -/
def WriteOpConverter.convert (remote : StateView)
    (new_slot_metadata : Option StateValueMetadata)
    (state_key : StateKey) (move_storage_op : MoveStorageOp Bytes)
    (legacy_creation_as_modification : Bool) : Except VMStatus WriteOp :=
  match remote state_key with
  | .error _ => .error (VMStatus.Error .STORAGE_ERROR none)
  | .ok existing_value_opt =>
    match existing_value_opt, move_storage_op with
    | none, .Modify _ | none, .Delete | some _, .New _ =>
      .error (VMStatus.Error .UNKNOWN_INVARIANT_VIOLATION_ERROR none)
    | none, .New data =>
      match new_slot_metadata with
      | none =>
        if legacy_creation_as_modification then .ok (.Modification data)
        else .ok (.Creation data)
      | some metadata => .ok (.CreationWithMetadata data metadata)
    | some existing_value, .Modify data =>
      match existing_value.metadata with
      | none => .ok (.Modification data)
      | some metadata => .ok (.ModificationWithMetadata data metadata)
    | some existing_value, .Delete =>
      match existing_value.metadata with
      | none => .ok WriteOp.Deletion
      | some metadata => .ok (.DeletionWithMetadata metadata)

/-- The new-slot metadata decision of `convert_change_set` (lines 358-364):
metadata is built exactly when both a payer and a current timestamp are
available. -/
def mkNewSlotMetadata (new_slot_payer : Option Nat) (current_time : Option Nat) :
    Option StateValueMetadata :=
  match new_slot_payer, current_time with
  | some payer, some t => some ⟨payer, 0, t⟩
  | _, _ => none

/-- Whether the requested op mismatches prior existence: `Modify`/`Delete`
of a nonexistent slot, or `New` over an existing one. -/
def opMismatch (existing : Option StateValue) (op : MoveStorageOp Bytes) : Bool :=
  match existing, op with
  | none, .Modify _ => true
  | none, .Delete => true
  | some _, .New _ => true
  | _, _ => false

/-- Whether a `WriteOp` is a creation (with or without metadata). -/
def WriteOp.isCreationKind : WriteOp → Bool
  | .Creation _ => true
  | .CreationWithMetadata _ _ => true
  | _ => false

/-! ## Resource-group merge core (`split_and_merge_resource_groups`,
session.rs lines 251-299) -/

/-- Resource type tag (`StructTag`), abstracted to `Nat`. -/
abbrev Tag := Nat

/-- The working container of a resource group: the deserialized
`BTreeMap<StructTag, Vec<u8>>`, as an association list with unique keys. -/
abbrev Container := List (Tag × Bytes)

/-- Lookup of a member in the working container. -/
def Container.findVal : Container → Tag → Option Bytes
  | [], _ => none
  | (t, b) :: rest, tag => if t = tag then some b else Container.findVal rest tag

/-- Removal of a member from the working container
(`source_data.remove(&struct_tag)`). -/
def Container.removeTag : Container → Tag → Container
  | [], _ => []
  | (t, b) :: rest, tag =>
    if t = tag then rest else (t, b) :: Container.removeTag rest tag

/-- In-place overwrite of a member's bytes (`*data = new_data` after
`get_mut`). -/
def Container.setVal : Container → Tag → Bytes → Container
  | [], _, _ => []
  | (t, b) :: rest, tag, new_data =>
    if t = tag then (t, new_data) :: rest
    else (t, b) :: Container.setVal rest tag new_data

/-- The generic invariant-violation error
(`PartialVMError::new(StatusCode::UNKNOWN_INVARIANT_VIOLATION_ERROR)`),
shared by every failure path of the resource-group merge. -/
def common_error : VMStatus := VMStatus.Error .UNKNOWN_INVARIANT_VIOLATION_ERROR none

/-- One step of the member-op application loop (session.rs lines 263-283):
`Delete` requires presence and removes; `Modify` requires presence and
overwrites; `New` requires absence and inserts. -/
def applyGroupOp (source_data : Container) (struct_tag : Tag)
    (current_op : MoveStorageOp Bytes) : Except VMStatus Container :=
  match current_op with
  | .Delete =>
    match Container.findVal source_data struct_tag with
    | none => .error common_error
    | some _ => .ok (Container.removeTag source_data struct_tag)
  | .Modify new_data =>
    match Container.findVal source_data struct_tag with
    | none => .error common_error
    | some _ => .ok (Container.setVal source_data struct_tag new_data)
  | .New data =>
    match Container.findVal source_data struct_tag with
    | some _ => .error common_error
    | none => .ok (source_data ++ [(struct_tag, data)])

/-- The member-op application loop over the accumulated ops of one
(owner, group) pair. -/
def applyGroupOps (source_data : Container) :
    List (Tag × MoveStorageOp Bytes) → Except VMStatus Container
  | [] => .ok source_data
  | (struct_tag, current_op) :: rest =>
    match applyGroupOp source_data struct_tag current_op with
    | .error e => .error e
    | .ok source_data2 => applyGroupOps source_data2 rest

/-- The per-(owner, group) merge (session.rs lines 251-299): read and
deserialize the existing group blob (absent means start empty and remember
the slot is being created), apply every accumulated member op, then
classify the resulting group-level op: empty container means `Delete`,
newly created slot means `New(serialize(container))`, otherwise
`Modify(serialize(container))`. `ser`/`deser` stand for
`bcs::to_bytes`/`bcs::from_bytes`; their failures map to `common_error`. -/
def mergeGroup (ser : Container → Option Bytes) (deser : Bytes → Option Container)
    (source_data_opt : Option Bytes) (ops : List (Tag × MoveStorageOp Bytes)) :
    Except VMStatus (MoveStorageOp Bytes) :=
  match (match source_data_opt with
         | some bytes =>
           match deser bytes with
           | some c => Except.ok (c, false)
           | none => Except.error common_error
         | none => Except.ok (([] : Container), true)) with
  | .error e => .error e
  | .ok (source_data, create) =>
    match applyGroupOps source_data ops with
    | .error e => .error e
    | .ok source_data2 =>
      if source_data2.isEmpty then .ok .Delete
      else if create then
        match ser source_data2 with
        | some b => .ok (.New b)
        | none => .error common_error
      else
        match ser source_data2 with
        | some b => .ok (.Modify b)
        | none => .error common_error

/-! ## Timestamp resolution (session.rs lines 309-342) -/

/-- `parse_updated_timestamp` (lines 313-331): a `New`/`Modify` of the
global-timestamp resource is parsed with `bcs::from_bytes` (the `deser`
parameter); parse failure or a `Delete` yields `Err(())`. -/
def parse_updated_timestamp (deser : Bytes → Option Nat)
    (op : MoveStorageOp Bytes) : Except Unit (Option Nat) :=
  match op with
  | .New bytes | .Modify bytes =>
    match deser bytes with
    | some current_time => .ok (some current_time)
    | none => .error ()
  | .Delete => .error ()

/-- `get_current_timestamp` (lines 333-342): a parsed update wins; no
update seen falls back to `CurrentTimeMicroseconds::fetch_config(remote)`
(the `fetched_config` parameter); a failed parse means no timestamp. -/
def get_current_timestamp (updated_timestamp : Except Unit (Option Nat))
    (fetched_config : Option Nat) : Option Nat :=
  match updated_timestamp with
  | .ok (some timestamp) => some timestamp
  | .ok none => fetched_config
  | .error _ => none






/-! ## Write-set accumulator and freeze -/

/-- Modelled from the spec: the mutable write-set accumulator
(`WriteSetMut` of `aptos-types`, whose source is not part of this
excerpt) — "the accumulated (LogicalAddress → CanonicalWriteOp) map",
here an association list whose insert replaces an existing entry for the
same logical address. -/
abbrev WriteSetMut := List (StateKey × WriteOp)

/-- Modelled from the spec: `WriteSetMut::insert` keeps at most one
entry per logical address (replace-or-append). -/
def wsInsert (ws : WriteSetMut) (key : StateKey) (op : WriteOp) : WriteSetMut :=
  match ws with
  | [] => [(key, op)]
  | (k, w) :: rest =>
    if k = key then (key, op) :: rest else (k, w) :: wsInsert rest key op

/-- Modelled from the spec: `WriteSetMut::get` looks up the write-op
accumulated at a logical address. -/
def wsGet : WriteSetMut → StateKey → Option WriteOp
  | [], _ => none
  | (k, w) :: rest, key => if k = key then some w else wsGet rest key

/-- Modelled from the spec: `WriteSetMut::freeze` (not part of this
excerpt) canonicalizes each logical address to its physical key (`canon`)
and produces the immutable write-set; "a duplicate insertion at freeze
time (two independent logical addresses that canonicalize to the same
physical key)" fails, which `convert_change_set` maps to
`DATA_FORMAT_ERROR`. -/
def wsFreeze (canon : StateKey → Nat) (ws : WriteSetMut) :
    Except VMStatus (List (Nat × WriteOp)) :=
  let phys := ws.map (fun kv => (canon kv.1, kv.2))
  if (phys.map Prod.fst).Nodup then .ok phys
  else .error (VMStatus.Error .DATA_FORMAT_ERROR none)

/-! ## convert_change_set (session.rs lines 344-468) -/

/-- The opaque delta payload of an aggregator `Merge` (a `DeltaOp`). -/
abbrev DeltaOp := Int

/-- Modelled from the spec: the unmaterialized-delta accumulator
(`DeltaChangeSet` of `aptos-aggregator`, whose source is not part of this
excerpt); `insert` records a `(key, delta)` pair. -/
abbrev DeltaChangeSet := List (StateKey × DeltaOp)

/-- `AggregatorChange`: a direct numeric write, a delta merge, or a
deletion of the aggregator. -/
inductive AggregatorChange where
  | Write (value : Nat)
  | Merge (delta_op : DeltaOp)
  | Delete
deriving DecidableEq, Repr

/-- The `VMStatus` raised when a direct numeric write collides with a
modification or deletion already in the write-set (lines 429-432). -/
def directWriteError : VMStatus :=
  VMStatus.Error .UNKNOWN_INVARIANT_VIOLATION_ERROR
    (some "Direct write to aggregator value")

/-- One step of the aggregator-change loop of `convert_change_set`
(lines 410-446). `serU128` stands for `aptos_aggregator::serialize` of the
`u128` value. -/
def applyAggregatorChange (remote : StateView)
    (new_slot_metadata : Option StateValueMetadata) (serU128 : Nat → Bytes)
    (ws : WriteSetMut) (ds : DeltaChangeSet) (state_key : StateKey)
    (change : AggregatorChange) : Except VMStatus (WriteSetMut × DeltaChangeSet) :=
  match change with
  | .Write value =>
    let bytes := serU128 value
    match (match wsGet ws state_key with
           | none => Except.ok (MoveStorageOp.New bytes)
           | some direct_write =>
             match direct_write with
             | .Creation _ | .CreationWithMetadata _ _ =>
               Except.ok (MoveStorageOp.New bytes)
             | .Modification _ | .ModificationWithMetadata _ _
             | .Deletion | .DeletionWithMetadata _ =>
               Except.error directWriteError) with
    | .error e => .error e
    | .ok move_op =>
      match WriteOpConverter.convert remote new_slot_metadata state_key move_op false with
      | .error e => .error e
      | .ok write_op => .ok (wsInsert ws state_key write_op, ds)
  | .Merge delta_op => .ok (ws, ds ++ [(state_key, delta_op)])
  | .Delete =>
    match WriteOpConverter.convert remote new_slot_metadata state_key .Delete false with
    | .error e => .error e
    | .ok write_op => .ok (wsInsert ws state_key write_op, ds)

/-- The aggregator-change loop (lines 410-447). -/
def processAggChanges (remote : StateView)
    (new_slot_metadata : Option StateValueMetadata) (serU128 : Nat → Bytes)
    (ws : WriteSetMut) (ds : DeltaChangeSet) :
    List (StateKey × AggregatorChange) → Except VMStatus (WriteSetMut × DeltaChangeSet)
  | [] => .ok (ws, ds)
  | (state_key, change) :: rest =>
    match applyAggregatorChange remote new_slot_metadata serU128 ws ds state_key change with
    | .error e => .error e
    | .ok (ws2, ds2) => processAggChanges remote new_slot_metadata serU128 ws2 ds2 rest

/-- A loop converting a list of `(state_key, op)` pairs through
`WriteOpConverter::convert` and inserting the results into the write-set
accumulator. -/
def convertOps (remote : StateView) (new_slot_metadata : Option StateValueMetadata)
    (legacy : Bool) (ws : WriteSetMut) :
    List (StateKey × MoveStorageOp Bytes) → Except VMStatus WriteSetMut
  | [] => .ok ws
  | (state_key, blob_op) :: rest =>
    match WriteOpConverter.convert remote new_slot_metadata state_key blob_op legacy with
    | .error e => .error e
    | .ok op => convertOps remote new_slot_metadata legacy (wsInsert ws state_key op) rest

/-- One account's change set after access-path encoding of its keys:
its resource ops and its module ops. -/
structure AccountOps where
  resources : List (StateKey × MoveStorageOp Bytes)
  modules : List (StateKey × MoveStorageOp Bytes)
deriving Repr

/-- The per-account loop of `convert_change_set` (lines 371-390): each
account's resources are converted with the
`legacy_resource_creation_as_modification` config, then its modules with
`false`. -/
def processAccounts (remote : StateView)
    (new_slot_metadata : Option StateValueMetadata) (legacy : Bool)
    (ws : WriteSetMut) : List AccountOps → Except VMStatus WriteSetMut
  | [] => .ok ws
  | acct :: rest =>
    match convertOps remote new_slot_metadata legacy ws acct.resources with
    | .error e => .error e
    | .ok ws2 =>
      match convertOps remote new_slot_metadata false ws2 acct.modules with
      | .error e => .error e
      | .ok ws3 => processAccounts remote new_slot_metadata legacy ws3 rest

/-- `ChangeSetConfigs` as used here: only the
`legacy_resource_creation_as_modification` flag is read by this code. -/
structure ChangeSetConfigs where
  legacy_resource_creation_as_modification : Bool
deriving DecidableEq, Repr

/-- The inputs of `convert_change_set` after access-path / table-item key
encoding: the filtered per-account change set, the group-level ops, the
table-entry ops, and the aggregator changes. -/
structure ConversionInput where
  change_set : List AccountOps
  groupOps : List (StateKey × MoveStorageOp Bytes)
  tableOps : List (StateKey × MoveStorageOp Bytes)
  aggOps : List (StateKey × AggregatorChange)
deriving Repr

/-- `convert_change_set` (lines 344-468): build the new-slot metadata from
payer and timestamp, convert every account / group / table op through
`WriteOpConverter::convert` (only the per-account resource path receives
the legacy flag), integrate the aggregator changes, then freeze. Event
translation and the final `ChangeSet::new` size checks are external to the
paths the claims concern and are not modelled. -/
def convert_change_set (remote : StateView) (new_slot_payer : Option Nat)
    (current_time : Option Nat) (serU128 : Nat → Bytes) (canon : StateKey → Nat)
    (input : ConversionInput) (configs : ChangeSetConfigs) :
    Except VMStatus (List (Nat × WriteOp) × DeltaChangeSet) :=
  let new_slot_metadata := mkNewSlotMetadata new_slot_payer current_time
  match processAccounts remote new_slot_metadata
      configs.legacy_resource_creation_as_modification [] input.change_set with
  | .error e => .error e
  | .ok ws =>
    match convertOps remote new_slot_metadata false ws input.groupOps with
    | .error e => .error e
    | .ok ws2 =>
      match convertOps remote new_slot_metadata false ws2 input.tableOps with
      | .error e => .error e
      | .ok ws3 =>
        match processAggChanges remote new_slot_metadata serU128 ws3 [] input.aggOps with
        | .error e => .error e
        | .ok (ws4, ds) =>
          match wsFreeze canon ws4 with
          | .error _ => .error (VMStatus.Error .DATA_FORMAT_ERROR none)
          | .ok write_set => .ok (write_set, ds)

/-- Whether a `WriteOp` is a modification or a deletion (with or without
metadata) — the colliding cases of the aggregator `Write` path. -/
def WriteOp.isModifyOrDeleteKind : WriteOp → Bool
  | .Modification _ => true
  | .ModificationWithMetadata _ _ => true
  | .Deletion => true
  | .DeletionWithMetadata _ => true
  | _ => false

/-! ## Claim theorems -/

/-- C1 counterexample: with the `legacy_creation_as_modification` flag set
and no new-slot metadata available (no payer), converting `New([1])`
against a slot with no prior value succeeds but yields `Modification([1])`,
which is not a creation — so the claim's "produces a Creation(data)
write-op", read over all converter inputs, fails. -/
theorem c1_counterexample :
    WriteOpConverter.convert (fun _ => .ok none) (mkNewSlotMetadata none none) 0
      (.New [1]) true = .ok (.Modification [1])
    ∧ (WriteOp.Modification [1]).isCreationKind = false :=
  ⟨rfl, rfl⟩

/-- C1 (amended): for a slot with no prior value, converting `New(data)`
always succeeds; the result carries metadata (payer, zero deposit,
resolved timestamp) exactly when both a payer and a timestamp are
available, is `Creation(data)` when they are not both available and the
`legacy_creation_as_modification` flag is off, and is `Modification(data)`
when they are not both available and the flag is on. -/
theorem c1_new_slot_creation_metadata (remote : StateView) (payer time : Option Nat)
    (key : StateKey) (data : Bytes) (legacy : Bool) (h : remote key = .ok none) :
    WriteOpConverter.convert remote (mkNewSlotMetadata payer time) key (.New data) legacy =
      .ok (match payer, time with
           | some p, some t => .CreationWithMetadata data ⟨p, 0, t⟩
           | _, _ => if legacy then .Modification data else .Creation data) := by
  unfold WriteOpConverter.convert mkNewSlotMetadata
  rw [h]
  cases payer <;> cases time <;> cases legacy <;> rfl

/-- C1 witness: concrete instantiation of the amended claim with payer 5
and timestamp 7 available. -/
theorem c1_witness :
    WriteOpConverter.convert (fun _ => .ok none) (mkNewSlotMetadata (some 5) (some 7)) 0
      (.New [2]) false = .ok (.CreationWithMetadata [2] ⟨5, 0, 7⟩) :=
  c1_new_slot_creation_metadata (fun _ => .ok none) (some 5) (some 7) 0 [2] false rfl

/-- C2: assuming the state-view read succeeds, `WriteOpConverter::convert`
returns the `UNKNOWN_INVARIANT_VIOLATION_ERROR` status exactly when the
requested op mismatches prior existence: `Modify`/`Delete` of a slot with
no prior value, or `New` over an existing value. -/
theorem c2_convert_mismatch_iff (remote : StateView) (nsm : Option StateValueMetadata)
    (key : StateKey) (op : MoveStorageOp Bytes) (legacy : Bool)
    (existing : Option StateValue) (h : remote key = .ok existing) :
    (WriteOpConverter.convert remote nsm key op legacy =
        .error (VMStatus.Error .UNKNOWN_INVARIANT_VIOLATION_ERROR none))
      ↔ opMismatch existing op = true := by
  unfold WriteOpConverter.convert
  rw [h]
  cases existing with
  | none =>
    cases op with
    | New d =>
      cases nsm with
      | none => cases legacy <;> simp [opMismatch]
      | some m => simp [opMismatch]
    | Modify d => simp [opMismatch]
    | Delete => simp [opMismatch]
  | some v =>
    cases op with
    | New d => simp [opMismatch]
    | Modify d => cases hv : v.metadata <;> simp [opMismatch, hv]
    | Delete => cases hv : v.metadata <;> simp [opMismatch, hv]

/-- C2 witness: a `Delete` against an empty slot is an invariant
violation. -/
theorem c2_witness :
    WriteOpConverter.convert (fun _ => .ok none) none 0 .Delete false =
      .error (VMStatus.Error .UNKNOWN_INVARIANT_VIOLATION_ERROR none) :=
  (c2_convert_mismatch_iff (fun _ => .ok none) none 0 .Delete false none rfl).mpr rfl

/-- C9: when the prior value exists, `Modify` yields a modification and
`Delete` a deletion, each inheriting the prior value's metadata verbatim
when present and carrying none otherwise — independent of the run's
new-slot metadata (hence of payer and timestamp availability) and of the
legacy flag, both of which are universally quantified here. -/
theorem c9_metadata_inheritance (remote : StateView) (nsm : Option StateValueMetadata)
    (key : StateKey) (ev : StateValue) (data : Bytes) (legacy : Bool)
    (h : remote key = .ok (some ev)) :
    WriteOpConverter.convert remote nsm key (.Modify data) legacy =
      .ok (match ev.metadata with
           | some m => .ModificationWithMetadata data m
           | none => .Modification data)
    ∧ WriteOpConverter.convert remote nsm key .Delete legacy =
      .ok (match ev.metadata with
           | some m => .DeletionWithMetadata m
           | none => .Deletion) := by
  unfold WriteOpConverter.convert
  rw [h]
  cases hv : ev.metadata <;> simp [hv]

/-- C9 witness: modifying a slot whose prior value carries metadata
`(5, 0, 7)` yields a modification carrying exactly that metadata. -/
theorem c9_witness :
    WriteOpConverter.convert (fun _ => .ok (some ⟨[9], some ⟨5, 0, 7⟩⟩)) none 0
      (.Modify [1]) false = .ok (.ModificationWithMetadata [1] ⟨5, 0, 7⟩) :=
  (c9_metadata_inheritance (fun _ => .ok (some ⟨[9], some ⟨5, 0, 7⟩⟩)) none 0
    ⟨[9], some ⟨5, 0, 7⟩⟩ [1] false rfl).1

/-- C3: for one (owner, group) pair, once the accumulated member ops have
been applied to the working container, the group-level op is `Delete` if
the container ended empty, `New` of the serialized container if the group
slot did not previously exist in the state view, and `Modify` of the
serialized container otherwise. -/
theorem c3_group_classification (ser : Container → Option Bytes)
    (deser : Bytes → Option Container) (ops : List (Tag × MoveStorageOp Bytes))
    (c : Container) :
    (applyGroupOps [] ops = .ok c →
      mergeGroup ser deser none ops =
        (if c.isEmpty then .ok .Delete
         else match ser c with
              | some b => .ok (.New b)
              | none => .error common_error))
    ∧ (∀ (bytes : Bytes) (c0 : Container), deser bytes = some c0 →
        applyGroupOps c0 ops = .ok c →
        mergeGroup ser deser (some bytes) ops =
          (if c.isEmpty then .ok .Delete
           else match ser c with
                | some b => .ok (.Modify b)
                | none => .error common_error)) := by
  constructor
  · intro h
    simp only [mergeGroup, h]
    simp
  · intro bytes c0 hd h
    simp only [mergeGroup, hd, h]
    simp

/-- C3 witness: creating one member in a previously absent group yields a
group-level `New` of the serialized one-member container. -/
theorem c3_witness :
    mergeGroup (fun _ => some [9]) (fun _ => some ([] : Container)) none
      [(0, .New [1])] = .ok (.New [9]) :=
  (c3_group_classification (fun _ => some [9]) (fun _ => some ([] : Container))
    [(0, .New [1])] [(0, [1])]).1 rfl

/-- C4: each member op inconsistent with the working container —
`Delete` of an absent member, `Modify` of an absent member, `New` of a
present member — produces the generic invariant-violation error, and such
an error anywhere in the member-op loop, or in the deserialization of the
prior group blob, fails the whole merge with that same error. -/
theorem c4_group_member_inconsistency :
    (∀ (c : Container) (tag : Tag), Container.findVal c tag = none →
      applyGroupOp c tag .Delete = .error common_error)
    ∧ (∀ (c : Container) (tag : Tag) (d : Bytes), Container.findVal c tag = none →
      applyGroupOp c tag (.Modify d) = .error common_error)
    ∧ (∀ (c : Container) (tag : Tag) (d b : Bytes), Container.findVal c tag = some b →
      applyGroupOp c tag (.New d) = .error common_error)
    ∧ (∀ (c c2 : Container) (pre post : List (Tag × MoveStorageOp Bytes))
        (tag : Tag) (op : MoveStorageOp Bytes),
        applyGroupOps c pre = .ok c2 → applyGroupOp c2 tag op = .error common_error →
        applyGroupOps c (pre ++ (tag, op) :: post) = .error common_error)
    ∧ (∀ (ser : Container → Option Bytes) (deser : Bytes → Option Container)
        (bytes : Bytes) (c0 : Container) (ops : List (Tag × MoveStorageOp Bytes)),
        deser bytes = some c0 → applyGroupOps c0 ops = .error common_error →
        mergeGroup ser deser (some bytes) ops = .error common_error) := by
  refine ⟨?_, ?_, ?_, ?_, ?_⟩
  · intro c tag h
    unfold applyGroupOp
    rw [h]
  · intro c tag d h
    unfold applyGroupOp
    rw [h]
  · intro c tag d b h
    unfold applyGroupOp
    rw [h]
  · intro c c2 pre
    induction pre generalizing c with
    | nil =>
      intro post tag op h1 h2
      cases h1
      simp only [List.nil_append, applyGroupOps, h2]
    | cons hd tl ih =>
      intro post tag op h1 h2
      simp only [applyGroupOps, List.cons_append] at h1 ⊢
      cases hstep : applyGroupOp c hd.1 hd.2 with
      | error e =>
        rw [hstep] at h1
        cases h1
      | ok c1 =>
        rw [hstep] at h1
        exact ih c1 post tag op h1 h2
  · intro ser deser bytes c0 ops hd h
    simp only [mergeGroup, hd, h]

/-- C4 witness: deleting a member absent from the (empty) working
container is an invariant violation. -/
theorem c4_witness :
    applyGroupOp [] 0 .Delete = .error common_error :=
  c4_group_member_inconsistency.1 [] 0 rfl

/-- C8: the effective timestamp resolution — a successfully parsed update
of the global-timestamp resource is used; with no update seen, the
on-chain configuration fetched from the state view is used; a failed parse
or a delete of the resource is `Err(())`, which resolves to "no timestamp"
without failing the run. -/
theorem c8_timestamp_resolution :
    (∀ (deser : Bytes → Option Nat) (bytes : Bytes) (t : Nat), deser bytes = some t →
      parse_updated_timestamp deser (.New bytes) = .ok (some t)
      ∧ parse_updated_timestamp deser (.Modify bytes) = .ok (some t))
    ∧ (∀ (deser : Bytes → Option Nat) (bytes : Bytes), deser bytes = none →
      parse_updated_timestamp deser (.New bytes) = .error ()
      ∧ parse_updated_timestamp deser (.Modify bytes) = .error ())
    ∧ (∀ deser : Bytes → Option Nat, parse_updated_timestamp deser .Delete = .error ())
    ∧ (∀ (t : Nat) (fetched : Option Nat),
        get_current_timestamp (.ok (some t)) fetched = some t)
    ∧ (∀ fetched : Option Nat, get_current_timestamp (.ok none) fetched = fetched)
    ∧ (∀ fetched : Option Nat, get_current_timestamp (.error ()) fetched = none) := by
  refine ⟨?_, ?_, fun _ => rfl, fun _ _ => rfl, fun _ => rfl, fun _ => rfl⟩
  · intro deser bytes t h
    constructor <;> · simp only [parse_updated_timestamp, h]
  · intro deser bytes h
    constructor <;> · simp only [parse_updated_timestamp, h]

/-- C8 witness: a parsed update value 3 wins over a fetched configuration
value 9. -/
theorem c8_witness :
    parse_updated_timestamp (fun _ => some 3) (.New [0]) = .ok (some 3)
    ∧ get_current_timestamp (.ok (some 3)) (some 9) = some 3 :=
  ⟨(c8_timestamp_resolution.1 (fun _ => some 3) [0] 3 rfl).1,
   c8_timestamp_resolution.2.2.2.1 3 (some 9)⟩

/-- Building a write-set by repeated `wsInsert` from empty, as every loop
of `convert_change_set` does. -/
def buildWriteSet (items : List (StateKey × WriteOp)) : WriteSetMut :=
  items.foldl (fun acc kv => wsInsert acc kv.1 kv.2) []

/-- The keys after a replace-or-append insert: unchanged when the key was
present, extended by the key otherwise. -/
theorem wsInsert_keys (ws : WriteSetMut) (key : StateKey) (op : WriteOp) :
    (wsInsert ws key op).map Prod.fst =
      if key ∈ ws.map Prod.fst then ws.map Prod.fst
      else ws.map Prod.fst ++ [key] := by
  induction ws with
  | nil => simp [wsInsert]
  | cons hd tl ih =>
    by_cases hk : hd.1 = key
    · simp [wsInsert, hk]
    · simp only [wsInsert, if_neg hk, List.map_cons, ih, List.mem_cons]
      by_cases hm : key ∈ tl.map Prod.fst
      · simp [hm, hk, Ne.symm hk]
      · simp [hm, hk, Ne.symm hk]

/-- `wsInsert` preserves distinctness of the logical keys. -/
theorem wsInsert_nodup (ws : WriteSetMut) (key : StateKey) (op : WriteOp)
    (h : (ws.map Prod.fst).Nodup) : ((wsInsert ws key op).map Prod.fst).Nodup := by
  rw [wsInsert_keys]
  by_cases hm : key ∈ ws.map Prod.fst
  · simpa [hm] using h
  · simp only [if_neg hm]
    refine List.Nodup.append h (List.nodup_singleton key) ?_
    intro a ha hb
    simp only [List.mem_singleton] at hb
    exact hm (hb ▸ ha)

/-- Folding `wsInsert` over any items preserves distinctness of the
logical keys. -/
theorem foldl_wsInsert_nodup (items : List (StateKey × WriteOp)) (ws : WriteSetMut)
    (h : (ws.map Prod.fst).Nodup) :
    (((items.foldl (fun acc kv => wsInsert acc kv.1 kv.2) ws)).map Prod.fst).Nodup := by
  induction items generalizing ws with
  | nil => simpa using h
  | cons hd tl ih =>
    simp only [List.foldl_cons]
    exact ih _ (wsInsert_nodup ws hd.1 hd.2 h)

/-- C5: a write-set accumulated through `insert` holds at most one
write-op per logical address; `freeze` succeeds only when the canonical
physical keys are pairwise distinct (so the frozen write-set has at most
one op per key), and two entries canonicalizing to the same physical key
make the run fail with `DATA_FORMAT_ERROR`. -/
theorem c5_write_set_unique_freeze :
    (∀ items : List (StateKey × WriteOp), ((buildWriteSet items).map Prod.fst).Nodup)
    ∧ (∀ (canon : StateKey → Nat) (ws : WriteSetMut) (out : List (Nat × WriteOp)),
        wsFreeze canon ws = .ok out → (out.map Prod.fst).Nodup)
    ∧ (∀ (canon : StateKey → Nat) (ws : WriteSetMut),
        ¬ ((ws.map fun kv => canon kv.1).Nodup) →
        wsFreeze canon ws = .error (VMStatus.Error .DATA_FORMAT_ERROR none)) := by
  refine ⟨?_, ?_, ?_⟩
  · intro items
    exact foldl_wsInsert_nodup items [] (by simp)
  · intro canon ws out h
    unfold wsFreeze at h
    by_cases hc : (((ws.map fun kv => (canon kv.1, kv.2))).map Prod.fst).Nodup
    · rw [if_pos hc] at h
      cases h
      exact hc
    · rw [if_neg hc] at h
      cases h
  · intro canon ws h
    unfold wsFreeze
    rw [if_neg (by simpa [List.map_map, Function.comp] using h)]

/-- C5 witness: two logical addresses canonicalizing to the same physical
key make freeze fail with `DATA_FORMAT_ERROR`. -/
theorem c5_witness :
    wsFreeze (fun _ => 0) [(0, WriteOp.Deletion), (1, WriteOp.Deletion)] =
      .error (VMStatus.Error .DATA_FORMAT_ERROR none) :=
  c5_write_set_unique_freeze.2.2 (fun _ => 0) [(0, WriteOp.Deletion), (1, WriteOp.Deletion)]
    (by decide)

/-- C6: an aggregator `Write(value)` against a slot whose accumulated
write-op is a modification or deletion (with or without metadata) fails
with the invariant-violation status carrying the "Direct write to
aggregator value" message; the failure propagates through the
aggregator-change loop, and a whole `convert_change_set` run whose session
issued a direct `Modify` and an aggregator `Write` against the same slot
fails with that error. -/
theorem c6_aggregator_write_collision (remote : StateView)
    (nsm : Option StateValueMetadata) (serU128 : Nat → Bytes)
    (ws : WriteSetMut) (ds : DeltaChangeSet) (key : StateKey) (v : Nat)
    (op : WriteOp) (hget : wsGet ws key = some op)
    (hkind : op.isModifyOrDeleteKind = true) :
    applyAggregatorChange remote nsm serU128 ws ds key (.Write v) = .error directWriteError
    ∧ (∀ rest : List (StateKey × AggregatorChange),
        processAggChanges remote nsm serU128 ws ds ((key, .Write v) :: rest) =
          .error directWriteError)
    ∧ (∀ (remote2 : StateView) (payer time : Option Nat) (ser2 : Nat → Bytes)
        (canon : StateKey → Nat) (cfg : ChangeSetConfigs) (k : StateKey)
        (data : Bytes) (sval : StateValue) (val : Nat),
        remote2 k = .ok (some sval) →
        convert_change_set remote2 payer time ser2 canon
          ⟨[⟨[(k, .Modify data)], []⟩], [], [], [(k, .Write val)]⟩ cfg =
          .error directWriteError) := by
  have hstep : applyAggregatorChange remote nsm serU128 ws ds key (.Write v) =
      .error directWriteError := by
    simp only [applyAggregatorChange, hget]
    cases op <;> simp_all [WriteOp.isModifyOrDeleteKind]
  refine ⟨hstep, ?_, ?_⟩
  · intro rest
    simp only [processAggChanges, hstep]
  · intro remote2 payer time ser2 canon cfg k data sval val h
    simp only [convert_change_set, processAccounts, convertOps,
      WriteOpConverter.convert, h]
    cases hv : sval.metadata <;>
      simp [processAggChanges, applyAggregatorChange, wsGet, wsInsert,
        WriteOp.isModifyOrDeleteKind, hv]

/-- C6 witness: a direct numeric write against a slot already holding a
`Modification` fails with the direct-write invariant violation. -/
theorem c6_witness :
    applyAggregatorChange (fun _ => .ok none) none (fun v => [v])
      [(0, WriteOp.Modification [1])] [] 0 (.Write 3) = .error directWriteError :=
  (c6_aggregator_write_collision (fun _ => .ok none) none (fun v => [v])
    [(0, WriteOp.Modification [1])] [] 0 3 (WriteOp.Modification [1]) rfl rfl).1

/-- C7: an aggregator `Write(value)` against a slot with no accumulated
write-op and no prior materialized value places a creation of the
serialized value into the write-set (carrying the run's new-slot metadata
exactly when it is available), and an aggregator `Merge(delta)` records
the delta while leaving the write-set untouched. -/
theorem c7_aggregator_write_and_merge (remote : StateView)
    (nsm : Option StateValueMetadata) (serU128 : Nat → Bytes)
    (ws : WriteSetMut) (ds : DeltaChangeSet) (key : StateKey) (v : Nat)
    (hget : wsGet ws key = none) (hsv : remote key = .ok none) :
    applyAggregatorChange remote nsm serU128 ws ds key (.Write v) =
      .ok (wsInsert ws key
            (match nsm with
             | none => .Creation (serU128 v)
             | some m => .CreationWithMetadata (serU128 v) m), ds)
    ∧ (∀ (ws2 : WriteSetMut) (ds2 : DeltaChangeSet) (key2 : StateKey) (d : DeltaOp),
        applyAggregatorChange remote nsm serU128 ws2 ds2 key2 (.Merge d) =
          .ok (ws2, ds2 ++ [(key2, d)])) := by
  constructor
  · simp only [applyAggregatorChange, hget, WriteOpConverter.convert, hsv]
    cases nsm <;> rfl
  · intro ws2 ds2 key2 d
    rfl

/-- C7 witness: with no metadata available, an aggregator `Write(42)`
against a fresh slot creates `Creation(serialize(42))`; a `Merge` records
its delta and leaves the write-set unchanged. -/
theorem c7_witness :
    applyAggregatorChange (fun _ => .ok none) none (fun v => [v]) [] [] 0 (.Write 42) =
      .ok ([(0, WriteOp.Creation [42])], [])
    ∧ applyAggregatorChange (fun _ => .ok none) none (fun v => [v]) [] [] 0 (.Merge 5) =
      .ok ([], [(0, (5 : DeltaOp))]) :=
  ⟨(c7_aggregator_write_and_merge (fun _ => .ok none) none (fun v => [v])
      [] [] 0 42 rfl rfl).1,
   (c7_aggregator_write_and_merge (fun _ => .ok none) none (fun v => [v])
      [] [] 0 42 rfl rfl).2 [] [] 0 5⟩

/-- When every account carries no resource ops, the per-account loop is
independent of the legacy flag (only the resource path receives it; the
module path always passes `false`). -/
theorem processAccounts_no_resources (remote : StateView)
    (nsm : Option StateValueMetadata) (b1 b2 : Bool) (ws : WriteSetMut)
    (accts : List AccountOps) (h : ∀ a ∈ accts, a.resources = []) :
    processAccounts remote nsm b1 ws accts = processAccounts remote nsm b2 ws accts := by
  induction accts generalizing ws with
  | nil => rfl
  | cons acct rest ih =>
    have hr : acct.resources = [] := h acct (List.mem_cons_self acct rest)
    have hrest : ∀ a ∈ rest, a.resources = [] := fun a ha => h a (List.mem_cons_of_mem _ ha)
    simp only [processAccounts, hr, convertOps]
    cases hm : convertOps remote nsm false ws acct.modules with
    | error e => rfl
    | ok ws3 => exact ih ws3 hrest

/-- C10: the `legacy_resource_creation_as_modification` config only
reaches the per-account non-group resource path — a run with no resource
ops is independent of it; when the flag is set and no new-slot metadata is
available, converting `New(data)` against an empty slot yields
`Modification(data)` instead of `Creation(data)`, and a whole run over a
single such resource op produces a `Modification` in the frozen
write-set. -/
theorem c10_legacy_flag_scope (remote : StateView) (payer time : Option Nat)
    (serU128 : Nat → Bytes) (canon : StateKey → Nat) :
    (∀ (accts : List AccountOps) (gOps tOps : List (StateKey × MoveStorageOp Bytes))
        (aOps : List (StateKey × AggregatorChange)) (b1 b2 : Bool),
        (∀ a ∈ accts, a.resources = []) →
        convert_change_set remote payer time serU128 canon ⟨accts, gOps, tOps, aOps⟩ ⟨b1⟩ =
        convert_change_set remote payer time serU128 canon ⟨accts, gOps, tOps, aOps⟩ ⟨b2⟩)
    ∧ (∀ (key : StateKey) (data : Bytes), remote key = .ok none →
        WriteOpConverter.convert remote none key (.New data) true =
          .ok (.Modification data))
    ∧ (∀ (key : StateKey) (data : Bytes), remote key = .ok none →
        convert_change_set remote none none serU128 canon
          ⟨[⟨[(key, .New data)], []⟩], [], [], []⟩ ⟨true⟩ =
          .ok ([(canon key, .Modification data)], [])) := by
  refine ⟨?_, ?_, ?_⟩
  · intro accts gOps tOps aOps b1 b2 h
    simp only [convert_change_set]
    rw [processAccounts_no_resources remote _ b1 b2 [] accts h]
  · intro key data h
    simp [WriteOpConverter.convert, h]
  · intro key data h
    simp only [convert_change_set, processAccounts, convertOps,
      WriteOpConverter.convert, h, mkNewSlotMetadata]
    simp [processAggChanges, wsInsert, wsFreeze]

/-- C10 witness: with the flag set, no payer and no timestamp, `New([1])`
on an empty slot converts to `Modification([1])`. -/
theorem c10_witness :
    WriteOpConverter.convert (fun _ => .ok none) none 0 (.New [1]) true =
      .ok (.Modification [1]) :=
  (c10_legacy_flag_scope (fun _ => .ok none) none none (fun v => [v]) id).2.1 0 [1] rfl
